import Mathlib

/-!
Shallow embedding of `src/todo_backend/src/api/main.py`, a FastAPI + SQLite
CRUD service for a single `todos` table.

Modelling conventions:
* The SQLite table is a `List TodoRow` (in insertion order) together with the
  `AUTOINCREMENT` counter `nextId` (SQLite's AUTOINCREMENT never reuses an id
  after deletion, and the first assigned id is 1).
* `completed` is stored as an SQL INTEGER (the code writes 0/1);
  `_row_to_todo` converts it with Python `bool(int(...))`, i.e. nonzero ↦ true.
* `_utc_now_iso` returns the current UTC wall-clock time truncated to second
  precision; timestamps are embedded as `Nat` (seconds since epoch) and each
  handler takes the clock reading `now` as an explicit parameter.
* FastAPI path validation (`Path(..., ge=1)`) and pydantic body validation
  (`Field(..., min_length=1)`, required fields) happen before the handler
  body runs and surface as HTTP 422; they are modelled as the leading checks
  of each endpoint function, with request bodies given as records of
  `Option` fields (`none` = field absent from the JSON body).
* `HTTPException(404)` is `ApiError.notFound`, 422 is `ApiError.validation`,
  and an unhandled Python exception (an impossible re-fetch miss after a
  write) is `ApiError.internal`.
-/

/-- Errors an endpoint can surface: HTTP 422 (validation), 404 (not found),
and 500 (an unhandled exception, only on unreachable re-fetch branches). -/
inductive ApiError where
  | validation
  | notFound
  | internal
deriving DecidableEq, Repr

/-- One row of the `todos` table, as created by `_init_db`:
`id INTEGER PRIMARY KEY AUTOINCREMENT, title TEXT NOT NULL,
completed INTEGER NOT NULL DEFAULT 0, created_at TEXT, updated_at TEXT`. -/
structure TodoRow where
  id : Int
  title : String
  completed : Int
  created_at : Nat
  updated_at : Nat
deriving DecidableEq, Repr

/-- The persistent store: the `todos` table plus SQLite's AUTOINCREMENT
counter (`nextId` is the id the next INSERT will receive). -/
structure TodoDB where
  rows : List TodoRow
  nextId : Int
deriving DecidableEq, Repr

/-- The store right after `_init_db` on a fresh database file: no rows, and
the first INSERT will be assigned id 1. -/
def initDB : TodoDB := ⟨[], 1⟩

/-- Response model `Todo` (pydantic). -/
structure Todo where
  id : Int
  title : String
  completed : Bool
  created_at : Nat
  updated_at : Nat
deriving DecidableEq, Repr

/-- Response model `TodoList` (pydantic). -/
structure TodoList where
  items : List Todo
  total : Nat
deriving DecidableEq, Repr

/-- `_row_to_todo`: converts a SQLite row into a `Todo` model;
`completed=bool(int(row["completed"]))` maps any nonzero integer to true. -/
def _row_to_todo (r : TodoRow) : Todo :=
  { id := r.id
    title := r.title
    completed := r.completed != 0
    created_at := r.created_at
    updated_at := r.updated_at }

/-- Request body for POST /todos (`TodoCreate`): `title` is required with
`min_length=1`; `completed` is optional and defaults to false.  `none`
models the field being absent from the JSON body. -/
structure TodoCreate where
  title : Option String
  completed : Option Bool
deriving DecidableEq, Repr

/-- Request body for PUT /todos/\x7bid\x7d (`TodoUpdate`): `title` (required,
`min_length=1`) and `completed` (required boolean). -/
structure TodoUpdate where
  title : Option String
  completed : Option Bool
deriving DecidableEq, Repr

/-- `SELECT * FROM todos WHERE id = ?` followed by `fetchone()`: the first
row whose `id` matches, if any. -/
def findRow (rows : List TodoRow) (i : Int) : Option TodoRow :=
  rows.find? (fun r => r.id == i)

/-- POST /todos (`create_todo`).  Pydantic rejects a missing or empty
`title` with 422; otherwise the handler inserts a row with
`completed_int = 1 if payload.completed else 0`, both timestamps set to
`now`, re-fetches it by the assigned id and returns it. -/
def create_todo (db : TodoDB) (now : Nat) (payload : TodoCreate) :
    Except ApiError Todo × TodoDB :=
  match payload.title with
  | none => (.error .validation, db)
  | some title =>
    if title.length < 1 then (.error .validation, db)
    else
      let completed_int : Int := if payload.completed.getD false then 1 else 0
      let todo_id := db.nextId
      let rows' := db.rows ++ [⟨todo_id, title, completed_int, now, now⟩]
      let db' : TodoDB := ⟨rows', db.nextId + 1⟩
      match findRow rows' todo_id with
      | none => (.error .internal, db')
      | some row => (.ok (_row_to_todo row), db')

/-- GET /todos (`list_todos`): `SELECT * FROM todos ORDER BY id DESC`, each
row converted by `_row_to_todo`, with `total = len(items)`. -/
def list_todos (db : TodoDB) : TodoList :=
  let sorted := db.rows.mergeSort (fun a b => b.id ≤ a.id)
  let items := sorted.map _row_to_todo
  ⟨items, items.length⟩

/-- GET /todos/\x7bid\x7d (`get_todo`): path parameter `id` must satisfy
`ge=1` (else 422); then a single SELECT, 404 if no row matches. -/
def get_todo (db : TodoDB) (i : Int) : Except ApiError Todo × TodoDB :=
  if i < 1 then (.error .validation, db)
  else
    match findRow db.rows i with
    | none => (.error .notFound, db)
    | some row => (.ok (_row_to_todo row), db)

/-- PUT /todos/\x7bid\x7d (`update_todo`): path `id` must satisfy `ge=1` and
the body must have a non-empty `title` and a `completed` boolean (else 422);
then a SELECT (404 if absent) followed by
`UPDATE todos SET title=?, completed=?, updated_at=? WHERE id=?` and a
re-fetch of the updated row. -/
def update_todo (db : TodoDB) (now : Nat) (i : Int) (payload : TodoUpdate) :
    Except ApiError Todo × TodoDB :=
  if i < 1 then (.error .validation, db)
  else
    match payload.title, payload.completed with
    | some title, some completed =>
      if title.length < 1 then (.error .validation, db)
      else
        match findRow db.rows i with
        | none => (.error .notFound, db)
        | some _existing =>
          let completed_int : Int := if completed then 1 else 0
          let rows' := db.rows.map (fun r =>
            if r.id == i then
              { r with title := title, completed := completed_int, updated_at := now }
            else r)
          let db' : TodoDB := ⟨rows', db.nextId⟩
          match findRow rows' i with
          | none => (.error .internal, db')
          | some row => (.ok (_row_to_todo row), db')
    | _, _ => (.error .validation, db)

/-- DELETE /todos/\x7bid\x7d (`delete_todo`): path `id` must satisfy `ge=1`
(else 422); `DELETE FROM todos WHERE id = ?`; 404 when `rowcount == 0`,
otherwise an empty 204 response (modelled as `Unit`). -/
def delete_todo (db : TodoDB) (i : Int) : Except ApiError Unit × TodoDB :=
  if i < 1 then (.error .validation, db)
  else
    let rows' := db.rows.filter (fun r => !(r.id == i))
    let db' : TodoDB := ⟨rows', db.nextId⟩
    if db.rows.length = rows'.length then (.error .notFound, db')
    else (.ok (), db')

/-- PATCH /todos/\x7bid\x7d/toggle (`toggle_todo`): path `id` must satisfy
`ge=1` (else 422); a SELECT (404 if absent), then
`new_completed = 0 if current_completed == 1 else 1`, an UPDATE of
`completed` and `updated_at`, and a re-fetch of the updated row. -/
def toggle_todo (db : TodoDB) (now : Nat) (i : Int) :
    Except ApiError Todo × TodoDB :=
  if i < 1 then (.error .validation, db)
  else
    match findRow db.rows i with
    | none => (.error .notFound, db)
    | some row =>
      let current_completed := row.completed
      let new_completed : Int := if current_completed == 1 then 0 else 1
      let rows' := db.rows.map (fun r =>
        if r.id == i then { r with completed := new_completed, updated_at := now }
        else r)
      let db' : TodoDB := ⟨rows', db.nextId⟩
      match findRow rows' i with
      | none => (.error .internal, db')
      | some updated => (.ok (_row_to_todo updated), db')

/-- Well-formedness of a stored row relative to the AUTOINCREMENT counter:
ids are positive and below the counter, the NOT NULL / min_length title is
non-empty, `completed` is one of the two values the handlers ever write,
and `updated_at` never precedes `created_at`. -/
def RowWF (nextId : Int) (r : TodoRow) : Prop :=
  1 ≤ r.id ∧ r.id < nextId ∧ r.title ≠ "" ∧
    (r.completed = 0 ∨ r.completed = 1) ∧ r.created_at ≤ r.updated_at

instance (nextId : Int) (r : TodoRow) : Decidable (RowWF nextId r) := by
  unfold RowWF; infer_instance

/-- Well-formedness of the store: the counter is at least 1 and every row is
well formed. -/
def TodoDB.WF (db : TodoDB) : Prop :=
  1 ≤ db.nextId ∧ ∀ r ∈ db.rows, RowWF db.nextId r

instance (db : TodoDB) : Decidable db.WF := by
  unfold TodoDB.WF; infer_instance

/-! ### Helper lemmas about `findRow` -/

/-- A row found by `findRow rows i` has id `i`. -/
theorem findRow_id {rows : List TodoRow} {i : Int} {r : TodoRow}
    (h : findRow rows i = some r) : r.id = i := by
  have := List.find?_some h
  simpa using this

/-- An UPDATE `... WHERE id = i` (a map that rewrites exactly the rows with
id `i`, by an id-preserving rewrite `g`) commutes with `findRow`. -/
theorem findRow_update (rows : List TodoRow) (i : Int) (g : TodoRow → TodoRow)
    (hg : ∀ r, (g r).id = r.id) :
    findRow (rows.map (fun r => if r.id == i then g r else r)) i =
      Option.map g (findRow rows i) := by
  induction rows with
  | nil => rfl
  | cons a l ih =>
    by_cases ha : a.id = i
    · simp [findRow, ha, hg]
    · have hb : (a.id == i) = false := by simp [ha]
      simp only [findRow, List.map_cons, hb, Bool.false_eq_true, if_false,
        List.find?_cons]
      exact ih

/-- Appending a row whose id is fresh for `rows` makes `findRow` return it. -/
theorem findRow_append_fresh (rows : List TodoRow) (row : TodoRow)
    (h : ∀ r ∈ rows, r.id ≠ row.id) :
    findRow (rows ++ [row]) row.id = some row := by
  have h1 : findRow rows row.id = none := by
    rw [findRow, List.find?_eq_none]
    intro x hx
    simpa using h x hx
  rw [findRow, List.find?_append]
  rw [findRow] at h1
  simp [h1]

/-- After `DELETE ... WHERE id = i`, no row with id `i` remains. -/
theorem findRow_filter_out (rows : List TodoRow) (i : Int) :
    findRow (rows.filter (fun r => !(r.id == i))) i = none := by
  rw [findRow, List.find?_eq_none]
  intro x hx
  have := (List.mem_filter.mp hx).2
  simpa using this

/-! ### C3, C4, C6: create validation, create defaults, update on missing id -/

/-- C3: a create request whose `title` is missing or is the empty string is
rejected with a validation error and the store is left unchanged. -/
theorem c3_create_empty_title_rejected (db : TodoDB) (now : Nat) (p : TodoCreate)
    (h : p.title = none ∨ p.title = some "") :
    create_todo db now p = (.error .validation, db) := by
  rcases h with h | h <;> simp [create_todo, h]

/-- Witness for C3 at the concrete request with no `title` field. -/
theorem c3_witness :
    ((⟨none, none⟩ : TodoCreate).title = none ∨
        (⟨none, none⟩ : TodoCreate).title = some "") ∧
      create_todo initDB 0 ⟨none, none⟩ = (.error .validation, initDB) :=
  ⟨Or.inl rfl, c3_create_empty_title_rejected initDB 0 ⟨none, none⟩ (Or.inl rfl)⟩

/-- A successful create: with a well-formed store and a valid title, the
handler appends the new row (fresh id `db.nextId`), bumps the counter and
returns the re-fetched row. -/
theorem create_todo_ok (db : TodoDB) (now : Nat) (p : TodoCreate) (t : String)
    (hwf : db.WF) (ht : p.title = some t) (hlen : 1 ≤ t.length) :
    create_todo db now p =
      (.ok (_row_to_todo
          ⟨db.nextId, t, if p.completed.getD false then 1 else 0, now, now⟩),
        ⟨db.rows ++
            [⟨db.nextId, t, if p.completed.getD false then 1 else 0, now, now⟩],
          db.nextId + 1⟩) := by
  obtain ⟨hnext, hrows⟩ := hwf
  have hfresh : ∀ r ∈ db.rows, r.id ≠ db.nextId := fun r hr =>
    ne_of_lt (hrows r hr).2.1
  have hfind := findRow_append_fresh db.rows
    ⟨db.nextId, t, if p.completed.getD false then 1 else 0, now, now⟩ hfresh
  simp only [create_todo, ht]
  rw [if_neg (by omega)]
  simp only [hfind]

/-- C4: creating with a non-empty title and `completed` omitted returns the
persisted record with `completed = false`, a positive system-assigned id,
and `created_at = updated_at = now`. -/
theorem c4_create_defaults (db : TodoDB) (now : Nat) (p : TodoCreate) (t : String)
    (hwf : db.WF) (ht : p.title = some t) (hlen : 1 ≤ t.length)
    (hc : p.completed = none) :
    ∃ td db', create_todo db now p = (.ok td, db') ∧
      td.completed = false ∧ 1 ≤ td.id ∧
      td.created_at = now ∧ td.updated_at = now := by
  refine ⟨_, _, create_todo_ok db now p t hwf ht hlen, ?_, ?_, rfl, rfl⟩
  · simp [_row_to_todo, hc]
  · simpa [_row_to_todo] using hwf.1

/-- Witness for C4: creating "Buy milk" in the fresh store at time 5. -/
theorem c4_witness :
    ∃ td db', create_todo initDB 5 ⟨some "Buy milk", none⟩ = (.ok td, db') ∧
      td.completed = false ∧ 1 ≤ td.id ∧
      td.created_at = 5 ∧ td.updated_at = 5 :=
  c4_create_defaults initDB 5 ⟨some "Buy milk", none⟩ "Buy milk"
    (by decide) rfl (by decide) rfl

/-- C6: updating an id (from the endpoint's positive-integer domain) that is
not in the store returns a not-found error and leaves the store unchanged. -/
theorem c6_update_missing_id (db : TodoDB) (now : Nat) (i : Int) (p : TodoUpdate)
    (t : String) (b : Bool)
    (hi : 1 ≤ i) (ht : p.title = some t) (hlen : 1 ≤ t.length)
    (hb : p.completed = some b) (habs : findRow db.rows i = none) :
    update_todo db now i p = (.error .notFound, db) := by
  simp only [update_todo, ht, hb]
  rw [if_neg (by omega), if_neg (by omega)]
  simp [habs]

/-- Witness for C6: updating id 9999 in the fresh (empty) store. -/
theorem c6_witness :
    update_todo initDB 7 9999 ⟨some "x", some true⟩ = (.error .notFound, initDB) :=
  c6_update_missing_id initDB 7 9999 ⟨some "x", some true⟩ "x" true
    (by decide) rfl (by decide) rfl rfl

/-- A successful update: with a valid body and the row present, the handler
rewrites exactly the rows with the given id and returns the re-fetched
(first matching, rewritten) row. -/
theorem update_todo_ok (db : TodoDB) (now : Nat) (i : Int) (p : TodoUpdate)
    (t : String) (b : Bool) (r0 : TodoRow)
    (hi : 1 ≤ i) (ht : p.title = some t) (hlen : 1 ≤ t.length)
    (hb : p.completed = some b) (hfind : findRow db.rows i = some r0) :
    update_todo db now i p =
      (.ok (_row_to_todo
          { r0 with title := t, completed := if b then 1 else 0, updated_at := now }),
        ⟨db.rows.map (fun r =>
            if r.id == i then
              { r with title := t, completed := if b then 1 else 0, updated_at := now }
            else r),
          db.nextId⟩) := by
  have hupd := findRow_update db.rows i
    (fun r => { r with title := t, completed := if b then 1 else 0, updated_at := now })
    (fun r => rfl)
  simp only [update_todo, ht, hb]
  rw [if_neg (by omega), if_neg (by omega)]
  simp only [hfind, hupd]
  rfl

/-- C7: a successful update overwrites exactly `title` and `completed` with
the request values and refreshes `updated_at` to `now`, while `id` and
`created_at` of the targeted row — and every other row, as well as the id
counter — are unchanged. -/
theorem c7_update_frame (db : TodoDB) (now : Nat) (i : Int) (p : TodoUpdate)
    (t : String) (b : Bool) (r0 : TodoRow)
    (hi : 1 ≤ i) (ht : p.title = some t) (hlen : 1 ≤ t.length)
    (hb : p.completed = some b) (hfind : findRow db.rows i = some r0) :
    ∃ td db', update_todo db now i p = (.ok td, db') ∧
      td.id = r0.id ∧ td.title = t ∧ td.completed = b ∧
      td.created_at = r0.created_at ∧ td.updated_at = now ∧
      db'.nextId = db.nextId ∧ db'.rows.length = db.rows.length ∧
      ∀ j (hj : j < db.rows.length) (hj' : j < db'.rows.length),
        ((db.rows.get ⟨j, hj⟩).id ≠ i →
            db'.rows.get ⟨j, hj'⟩ = db.rows.get ⟨j, hj⟩) ∧
        ((db.rows.get ⟨j, hj⟩).id = i →
            db'.rows.get ⟨j, hj'⟩ =
              { db.rows.get ⟨j, hj⟩ with
                  title := t, completed := if b then 1 else 0, updated_at := now }) := by
  refine ⟨_, _, update_todo_ok db now i p t b r0 hi ht hlen hb hfind, rfl, rfl, ?_,
    rfl, rfl, rfl, by simp, ?_⟩
  · cases b <;> simp [_row_to_todo]
  · intro j hj hj'
    constructor
    · intro hne
      have hne' : (db.rows.get ⟨j, hj⟩).id ≠ i := hne
      simp only [List.get_eq_getElem] at hne' ⊢
      simp [List.getElem_map, hne']
    · intro heq
      have heq' : (db.rows.get ⟨j, hj⟩).id = i := heq
      simp only [List.get_eq_getElem] at heq' ⊢
      simp [List.getElem_map, heq']

/-- Witness for C7: updating the single row of a one-row store. -/
theorem c7_witness :
    ∃ td db',
      update_todo ⟨[⟨1, "a", 0, 2, 3⟩], 2⟩ 9 1 ⟨some "x", some true⟩ = (.ok td, db') ∧
      td.id = (⟨1, "a", 0, 2, 3⟩ : TodoRow).id ∧ td.title = "x" ∧ td.completed = true ∧
      td.created_at = (⟨1, "a", 0, 2, 3⟩ : TodoRow).created_at ∧ td.updated_at = 9 ∧
      db'.nextId = (⟨[⟨1, "a", 0, 2, 3⟩], 2⟩ : TodoDB).nextId ∧
      db'.rows.length = (⟨[⟨1, "a", 0, 2, 3⟩], 2⟩ : TodoDB).rows.length ∧
      ∀ j (hj : j < (⟨[⟨1, "a", 0, 2, 3⟩], 2⟩ : TodoDB).rows.length)
        (hj' : j < db'.rows.length),
        (((⟨[⟨1, "a", 0, 2, 3⟩], 2⟩ : TodoDB).rows.get ⟨j, hj⟩).id ≠ 1 →
            db'.rows.get ⟨j, hj'⟩ = (⟨[⟨1, "a", 0, 2, 3⟩], 2⟩ : TodoDB).rows.get ⟨j, hj⟩) ∧
        (((⟨[⟨1, "a", 0, 2, 3⟩], 2⟩ : TodoDB).rows.get ⟨j, hj⟩).id = 1 →
            db'.rows.get ⟨j, hj'⟩ =
              { (⟨[⟨1, "a", 0, 2, 3⟩], 2⟩ : TodoDB).rows.get ⟨j, hj⟩ with
                  title := "x", completed := if true then 1 else 0, updated_at := 9 }) :=
  c7_update_frame ⟨[⟨1, "a", 0, 2, 3⟩], 2⟩ 9 1 ⟨some "x", some true⟩ "x" true
    ⟨1, "a", 0, 2, 3⟩ (by decide) rfl (by decide) rfl rfl

/-- Inversion of a successful delete: the path id passed validation and the
resulting store is the original one with every row of that id removed. -/
theorem delete_todo_ok_inv (db : TodoDB) (i : Int) (u : Unit) (db' : TodoDB)
    (h : delete_todo db i = (.ok u, db')) :
    1 ≤ i ∧ db' = ⟨db.rows.filter (fun r => !(r.id == i)), db.nextId⟩ := by
  by_cases hi : i < 1
  · simp [delete_todo, hi] at h
  · refine ⟨by omega, ?_⟩
    simp only [delete_todo, if_neg hi] at h
    by_cases hlen : db.rows.length = (db.rows.filter (fun r => !(r.id == i))).length
    · simp [hlen] at h
    · simp [hlen] at h
      exact h.symm

/-- C8: after a successful delete (whose success value is the empty 204
body), a get on the same id is not-found and a second delete on the same id
is also not-found, both leaving the store as the delete left it. -/
theorem c8_delete_then_get (db db' : TodoDB) (i : Int) (u : Unit)
    (h : delete_todo db i = (.ok u, db')) :
    u = () ∧ get_todo db' i = (.error .notFound, db') ∧
      delete_todo db' i = (.error .notFound, db') := by
  obtain ⟨hi, hdb⟩ := delete_todo_ok_inv db i u db' h
  subst hdb
  refine ⟨rfl, ?_, ?_⟩
  · simp [get_todo, if_neg (by omega : ¬ i < 1), findRow_filter_out]
  · have hall : (db.rows.filter fun r => !(r.id == i)).filter (fun r => !(r.id == i)) =
        db.rows.filter (fun r => !(r.id == i)) := by
      rw [List.filter_eq_self]
      intro a ha
      exact (List.mem_filter.mp ha).2
    simp [delete_todo, if_neg (by omega : ¬ i < 1), hall]

/-- Witness for C8: deleting the single row of a one-row store. -/
theorem c8_witness :
    () = () ∧
      get_todo ⟨[], 2⟩ 1 = (.error .notFound, ⟨[], 2⟩) ∧
      delete_todo ⟨[], 2⟩ 1 = (.error .notFound, ⟨[], 2⟩) :=
  c8_delete_then_get ⟨[⟨1, "a", 0, 2, 3⟩], 2⟩ ⟨[], 2⟩ 1 () rfl

/-- A successful toggle: with the row present, the handler flips the value
read from the found row (`0 if current == 1 else 1`), stamps `updated_at`
with `now` on every row of that id, and returns the re-fetched row. -/
theorem toggle_todo_ok (db : TodoDB) (now : Nat) (i : Int) (r0 : TodoRow)
    (hi : 1 ≤ i) (hfind : findRow db.rows i = some r0) :
    toggle_todo db now i =
      (.ok (_row_to_todo
          { r0 with completed := if r0.completed == 1 then 0 else 1, updated_at := now }),
        ⟨db.rows.map (fun r =>
            if r.id == i then
              { r with completed := if r0.completed == 1 then 0 else 1, updated_at := now }
            else r),
          db.nextId⟩) := by
  have hupd := findRow_update db.rows i
    (fun r => { r with completed := if r0.completed == 1 then 0 else 1, updated_at := now })
    (fun r => rfl)
  simp only [toggle_todo]
  rw [if_neg (by omega)]
  simp only [hfind, hupd]
  rfl

/-- C1: toggling a stored item twice in sequence (with the clock strictly
advancing across the two calls) returns the stored `completed` back to its
original value, and `updated_at` strictly increases on each of the two
calls. -/
theorem c1_toggle_twice (db : TodoDB) (i : Int) (t1 t2 : Nat) (r : TodoRow)
    (hi : 1 ≤ i) (hfind : findRow db.rows i = some r)
    (hc : r.completed = 0 ∨ r.completed = 1)
    (h1 : r.updated_at < t1) (h2 : t1 < t2) :
    ∃ td1 db1 td2 db2 r1 r2,
      toggle_todo db t1 i = (.ok td1, db1) ∧
      toggle_todo db1 t2 i = (.ok td2, db2) ∧
      findRow db1.rows i = some r1 ∧ findRow db2.rows i = some r2 ∧
      r2.completed = r.completed ∧ td2.completed = (_row_to_todo r).completed ∧
      r.updated_at < r1.updated_at ∧ r1.updated_at < r2.updated_at ∧
      td1.updated_at = r1.updated_at ∧ td2.updated_at = r2.updated_at := by
  have hstep1 := toggle_todo_ok db t1 i r hi hfind
  set g1 : TodoRow → TodoRow :=
    fun s => { s with completed := if r.completed == 1 then 0 else 1, updated_at := t1 }
    with hg1
  have hfind1 : findRow (db.rows.map (fun s => if s.id == i then g1 s else s)) i =
      some (g1 r) := by
    rw [findRow_update db.rows i g1 (fun s => rfl), hfind]
    rfl
  have hstep2 := toggle_todo_ok ⟨db.rows.map (fun s => if s.id == i then g1 s else s),
      db.nextId⟩ t2 i (g1 r) hi hfind1
  set g2 : TodoRow → TodoRow :=
    fun s => { s with completed := if (g1 r).completed == 1 then 0 else 1, updated_at := t2 }
    with hg2
  have hfind2 : findRow ((db.rows.map (fun s => if s.id == i then g1 s else s)).map
      (fun s => if s.id == i then g2 s else s)) i = some (g2 (g1 r)) := by
    rw [findRow_update _ i g2 (fun s => rfl), hfind1]
    rfl
  refine ⟨_, _, _, _, g1 r, g2 (g1 r), hstep1, hstep2, hfind1, hfind2,
    ?_, ?_, ?_, ?_, rfl, rfl⟩
  · rcases hc with hc | hc <;> simp [hg1, hg2, hc]
  · rcases hc with hc | hc <;> simp [hg1, hg2, _row_to_todo, hc]
  · simpa [hg1] using h1
  · simpa [hg1, hg2] using h2

/-- Witness for C1 on a one-row store with the clock at 5 then 6. -/
theorem c1_witness :
    ∃ td1 db1 td2 db2 r1 r2,
      toggle_todo ⟨[⟨1, "a", 0, 2, 3⟩], 2⟩ 5 1 = (.ok td1, db1) ∧
      toggle_todo db1 6 1 = (.ok td2, db2) ∧
      findRow db1.rows 1 = some r1 ∧ findRow db2.rows 1 = some r2 ∧
      r2.completed = (⟨1, "a", 0, 2, 3⟩ : TodoRow).completed ∧
      td2.completed = (_row_to_todo ⟨1, "a", 0, 2, 3⟩).completed ∧
      (⟨1, "a", 0, 2, 3⟩ : TodoRow).updated_at < r1.updated_at ∧
      r1.updated_at < r2.updated_at ∧
      td1.updated_at = r1.updated_at ∧ td2.updated_at = r2.updated_at :=
  c1_toggle_twice ⟨[⟨1, "a", 0, 2, 3⟩], 2⟩ 1 5 6 ⟨1, "a", 0, 2, 3⟩
    (by decide) rfl (Or.inl rfl) (by decide) (by decide)

/-- C2: read-your-writes.  On a well-formed store, whenever create, update
or toggle succeeds and returns a record, an immediate get on that record's
id returns exactly the same record (and does not change the store). -/
theorem c2_read_your_writes (db : TodoDB) (hwf : db.WF) :
    (∀ now p td db', create_todo db now p = (.ok td, db') →
        get_todo db' td.id = (.ok td, db')) ∧
    (∀ now i p td db', update_todo db now i p = (.ok td, db') →
        get_todo db' td.id = (.ok td, db')) ∧
    (∀ now i td db', toggle_todo db now i = (.ok td, db') →
        get_todo db' td.id = (.ok td, db')) := by
  obtain ⟨hnext, hrows⟩ := hwf
  refine ⟨?_, ?_, ?_⟩
  · intro now p td db' h
    rcases htp : p.title with _ | t
    · simp [create_todo, htp] at h
    · by_cases hlen : t.length < 1
      · simp [create_todo, htp, hlen] at h
      · rw [create_todo_ok db now p t ⟨hnext, hrows⟩ htp (by omega)] at h
        injection h with h1 h2
        injection h1 with h1
        subst h1
        subst h2
        have hfresh : ∀ r ∈ db.rows, r.id ≠ db.nextId := fun r hr =>
          ne_of_lt (hrows r hr).2.1
        have hfind := findRow_append_fresh db.rows
          ⟨db.nextId, t, if p.completed.getD false then 1 else 0, now, now⟩ hfresh
        show get_todo _ db.nextId = _
        rw [get_todo, if_neg (by omega)]
        simp only [hfind]
  · intro now i p td db' h
    by_cases hi : i < 1
    · simp [update_todo, hi] at h
    · rcases htp : p.title with _ | t
        <;> rcases htc : p.completed with _ | b
      · simp [update_todo, hi, htp, htc] at h
      · simp [update_todo, hi, htp, htc] at h
      · simp [update_todo, hi, htp, htc] at h
      · by_cases hlen : t.length < 1
        · simp [update_todo, hi, htp, htc, hlen] at h
        · rcases hfind0 : findRow db.rows i with _ | r0
          · simp [update_todo, hi, htp, htc, hlen, hfind0] at h
          · rw [update_todo_ok db now i p t b r0 (by omega) htp (by omega) htc hfind0] at h
            injection h with h1 h2
            injection h1 with h1
            subst h1
            subst h2
            have hid : r0.id = i := findRow_id hfind0
            subst hid
            have hupd := findRow_update db.rows r0.id
              (fun r => { r with title := t, completed := if b then 1 else 0, updated_at := now })
              (fun r => rfl)
            have hfind1 : findRow (db.rows.map (fun r =>
                if r.id == r0.id then
                  { r with title := t, completed := if b then 1 else 0, updated_at := now }
                else r)) r0.id =
                some { r0 with title := t, completed := if b then 1 else 0, updated_at := now } := by
              rw [hupd, hfind0]
              rfl
            show get_todo _ r0.id = _
            rw [get_todo, if_neg hi]
            simp only [hfind1]
  · intro now i td db' h
    by_cases hi : i < 1
    · simp [toggle_todo, hi] at h
    · rcases hfind0 : findRow db.rows i with _ | r0
      · simp [toggle_todo, hi, hfind0] at h
      · rw [toggle_todo_ok db now i r0 (by omega) hfind0] at h
        injection h with h1 h2
        injection h1 with h1
        subst h1
        subst h2
        have hid : r0.id = i := findRow_id hfind0
        subst hid
        have hupd := findRow_update db.rows r0.id
          (fun r => { r with completed := if r0.completed == 1 then 0 else 1, updated_at := now })
          (fun r => rfl)
        have hfind1 : findRow (db.rows.map (fun r =>
            if r.id == r0.id then
              { r with completed := if r0.completed == 1 then 0 else 1, updated_at := now }
            else r)) r0.id =
            some { r0 with completed := if r0.completed == 1 then 0 else 1, updated_at := now } := by
          rw [hupd, hfind0]
          rfl
        show get_todo _ r0.id = _
        rw [get_todo, if_neg hi]
        simp only [hfind1]

/-- Witness for C2: the fresh store is well formed. -/
theorem c2_witness :
    (∀ now p td db', create_todo initDB now p = (.ok td, db') →
        get_todo db' td.id = (.ok td, db')) ∧
    (∀ now i p td db', update_todo initDB now i p = (.ok td, db') →
        get_todo db' td.id = (.ok td, db')) ∧
    (∀ now i td db', toggle_todo initDB now i = (.ok td, db') →
        get_todo db' td.id = (.ok td, db')) :=
  c2_read_your_writes initDB (by constructor <;> simp [initDB])

/-- C5: the list operation returns all stored items (as a permutation of
the store's rows), ordered by id descending, with `total` equal to the
number of items returned; the empty store yields the empty list with total
0 (the operation has no error outcome). -/
theorem c5_list_all_desc (db : TodoDB) :
    ((list_todos db).items).Perm (db.rows.map _row_to_todo) ∧
    ((list_todos db).items).Pairwise (fun a b => b.id ≤ a.id) ∧
    (list_todos db).total = (list_todos db).items.length ∧
    (db.rows = [] → list_todos db = ⟨[], 0⟩) := by
  refine ⟨?_, ?_, rfl, ?_⟩
  · exact (List.mergeSort_perm db.rows _).map _
  · have hs := @List.sorted_mergeSort TodoRow
      (fun a b => decide (b.id ≤ a.id))
      (fun a b c hab hbc => by simp only [decide_eq_true_eq] at hab hbc ⊢; omega)
      (fun a b => by simp only [Bool.or_eq_true, decide_eq_true_eq]; omega)
      db.rows
    exact List.Pairwise.map _row_to_todo
      (fun a b hab => by simpa using hab) hs
  · intro h
    simp [list_todos, h]

/-- Witness for C5 on a three-row store with ids 1, 2, 3. -/
theorem c5_witness :
    ((list_todos ⟨[⟨1, "a", 0, 1, 1⟩, ⟨2, "b", 0, 2, 2⟩, ⟨3, "c", 1, 3, 3⟩], 4⟩).items).Perm
      ((⟨[⟨1, "a", 0, 1, 1⟩, ⟨2, "b", 0, 2, 2⟩, ⟨3, "c", 1, 3, 3⟩], 4⟩ : TodoDB).rows.map
        _row_to_todo) ∧
    ((list_todos ⟨[⟨1, "a", 0, 1, 1⟩, ⟨2, "b", 0, 2, 2⟩, ⟨3, "c", 1, 3, 3⟩], 4⟩).items).Pairwise
      (fun a b => b.id ≤ a.id) ∧
    (list_todos ⟨[⟨1, "a", 0, 1, 1⟩, ⟨2, "b", 0, 2, 2⟩, ⟨3, "c", 1, 3, 3⟩], 4⟩).total =
      (list_todos ⟨[⟨1, "a", 0, 1, 1⟩, ⟨2, "b", 0, 2, 2⟩, ⟨3, "c", 1, 3, 3⟩], 4⟩).items.length ∧
    ((⟨[⟨1, "a", 0, 1, 1⟩, ⟨2, "b", 0, 2, 2⟩, ⟨3, "c", 1, 3, 3⟩], 4⟩ : TodoDB).rows = [] →
      list_todos ⟨[⟨1, "a", 0, 1, 1⟩, ⟨2, "b", 0, 2, 2⟩, ⟨3, "c", 1, 3, 3⟩], 4⟩ = ⟨[], 0⟩) :=
  c5_list_all_desc ⟨[⟨1, "a", 0, 1, 1⟩, ⟨2, "b", 0, 2, 2⟩, ⟨3, "c", 1, 3, 3⟩], 4⟩

/-- C10: a request to get, update, delete or toggle with a path id below 1
is rejected with a validation error and the store is untouched; conversely
a not-found outcome can only arise for ids at least 1. -/
theorem c10_path_id_validated (db : TodoDB) (now : Nat) (p : TodoUpdate) (i : Int) :
    (i < 1 →
      get_todo db i = (.error .validation, db) ∧
      update_todo db now i p = (.error .validation, db) ∧
      delete_todo db i = (.error .validation, db) ∧
      toggle_todo db now i = (.error .validation, db)) ∧
    ((get_todo db i).1 = .error .notFound → 1 ≤ i) ∧
    ((update_todo db now i p).1 = .error .notFound → 1 ≤ i) ∧
    ((delete_todo db i).1 = .error .notFound → 1 ≤ i) ∧
    ((toggle_todo db now i).1 = .error .notFound → 1 ≤ i) := by
  constructor
  · intro hi
    exact ⟨by simp [get_todo, hi], by simp [update_todo, hi],
      by simp [delete_todo, hi], by simp [toggle_todo, hi]⟩
  · by_cases hi : i < 1
    · refine ⟨?_, ?_, ?_, ?_⟩ <;> intro h
      · simp [get_todo, hi] at h
      · simp [update_todo, hi] at h
      · simp [delete_todo, hi] at h
      · simp [toggle_todo, hi] at h
    · exact ⟨fun _ => by omega, fun _ => by omega, fun _ => by omega, fun _ => by omega⟩

/-- Witness for C10: the four endpoints at id 0 on the fresh store. -/
theorem c10_witness :
    get_todo initDB 0 = (.error .validation, initDB) ∧
    update_todo initDB 0 0 ⟨some "x", some true⟩ = (.error .validation, initDB) ∧
    delete_todo initDB 0 = (.error .validation, initDB) ∧
    toggle_todo initDB 0 0 = (.error .validation, initDB) :=
  (c10_path_id_validated initDB 0 ⟨some "x", some true⟩ 0).1 (by decide)

/-! ### C9: invariants over all reachable stores -/

/-- The store after a create is either unchanged (validation failure) or the
old rows with one appended row carrying a non-empty title, a 0/1
`completed`, both timestamps `now` and the next counter value as id. -/
theorem create_todo_snd_cases (db : TodoDB) (now : Nat) (p : TodoCreate) :
    (create_todo db now p).2 = db ∨
    ∃ s : String, s ≠ "" ∧ (create_todo db now p).2 =
      ⟨db.rows ++ [⟨db.nextId, s, if p.completed.getD false then 1 else 0, now, now⟩],
        db.nextId + 1⟩ := by
  rcases htp : p.title with _ | s
  · left
    simp [create_todo, htp]
  · by_cases hlen : s.length < 1
    · left
      simp [create_todo, htp, hlen]
    · right
      refine ⟨s, fun he => by subst he; simp at hlen, ?_⟩
      simp only [create_todo, htp, if_neg hlen]
      split <;> rfl

/-- The store after an update is either unchanged or has exactly the rows of
the given id rewritten with a non-empty title, a 0/1 `completed` and
`updated_at = now`, with the counter untouched. -/
theorem update_todo_snd_cases (db : TodoDB) (now : Nat) (i : Int) (p : TodoUpdate) :
    (update_todo db now i p).2 = db ∨
    ∃ (s : String) (b : Bool), s ≠ "" ∧ (update_todo db now i p).2 =
      ⟨db.rows.map (fun r =>
          if r.id == i then
            { r with title := s, completed := if b then 1 else 0, updated_at := now }
          else r),
        db.nextId⟩ := by
  by_cases hi : i < 1
  · left
    simp [update_todo, hi]
  · rcases htp : p.title with _ | s
      <;> rcases htc : p.completed with _ | b
    · left; simp [update_todo, hi, htp, htc]
    · left; simp [update_todo, hi, htp, htc]
    · left; simp [update_todo, hi, htp, htc]
    · by_cases hlen : s.length < 1
      · left
        simp [update_todo, hi, htp, htc, hlen]
      · rcases hfind : findRow db.rows i with _ | r0
        · left
          simp [update_todo, hi, htp, htc, hlen, hfind]
        · right
          refine ⟨s, b, fun he => by subst he; simp at hlen, ?_⟩
          rw [update_todo_ok db now i p s b r0 (by omega) htp (by omega) htc hfind]

/-- The store after a toggle is either unchanged or has exactly the rows of
the given id rewritten with a 0/1 `completed` and `updated_at = now`, with
the counter untouched. -/
theorem toggle_todo_snd_cases (db : TodoDB) (now : Nat) (i : Int) :
    (toggle_todo db now i).2 = db ∨
    ∃ c : Int, (c = 0 ∨ c = 1) ∧ (toggle_todo db now i).2 =
      ⟨db.rows.map (fun r =>
          if r.id == i then { r with completed := c, updated_at := now } else r),
        db.nextId⟩ := by
  by_cases hi : i < 1
  · left
    simp [toggle_todo, hi]
  · rcases hfind : findRow db.rows i with _ | r0
    · left
      simp [toggle_todo, hi, hfind]
    · right
      refine ⟨if r0.completed == 1 then 0 else 1, ?_, ?_⟩
      · by_cases hc : r0.completed == 1 <;> simp [hc]
      · rw [toggle_todo_ok db now i r0 (by omega) hfind]

/-- The store after a delete is either unchanged or the old rows with every
row of the given id filtered out, with the counter untouched. -/
theorem delete_todo_snd_cases (db : TodoDB) (i : Int) :
    (delete_todo db i).2 = db ∨
    (delete_todo db i).2 = ⟨db.rows.filter (fun r => !(r.id == i)), db.nextId⟩ := by
  by_cases hi : i < 1
  · left
    simp [delete_todo, hi]
  · right
    simp only [delete_todo, if_neg hi]
    split <;> rfl

/-- A sequence of zero or more requests against the service, from store
`db0` to store `db`.  The first clock index bounds every timestamp already
in `db0`; each mutating request carries the clock reading `now` of its call
to `_utc_now_iso`, and readings never go backwards (the wall clock is
monotone).  `delete` writes no timestamp, and failed requests leave the
store unchanged, so all four handlers appear unconditionally. -/
inductive Steps : Nat → TodoDB → Nat → TodoDB → Prop where
  | refl (t : Nat) (db : TodoDB) : Steps t db t db
  | tick {t0 : Nat} {db0 : TodoDB} {t : Nat} {db : TodoDB} {t' : Nat}
      (h : Steps t0 db0 t db) (hle : t ≤ t') : Steps t0 db0 t' db
  | create {t0 : Nat} {db0 : TodoDB} {t : Nat} {db : TodoDB} {now : Nat}
      (h : Steps t0 db0 t db) (hle : t ≤ now) (p : TodoCreate) :
      Steps t0 db0 now (create_todo db now p).2
  | update {t0 : Nat} {db0 : TodoDB} {t : Nat} {db : TodoDB} {now : Nat}
      (h : Steps t0 db0 t db) (hle : t ≤ now) (i : Int) (p : TodoUpdate) :
      Steps t0 db0 now (update_todo db now i p).2
  | toggle {t0 : Nat} {db0 : TodoDB} {t : Nat} {db : TodoDB} {now : Nat}
      (h : Steps t0 db0 t db) (hle : t ≤ now) (i : Int) :
      Steps t0 db0 now (toggle_todo db now i).2
  | delete {t0 : Nat} {db0 : TodoDB} {t : Nat} {db : TodoDB}
      (h : Steps t0 db0 t db) (i : Int) :
      Steps t0 db0 t (delete_todo db i).2

/-- A store reachable from the freshly initialized database by some request
sequence starting at clock 0. -/
def Reachable (t : Nat) (db : TodoDB) : Prop := Steps 0 initDB t db

/-- Well-formedness bounded by a clock value: the store is well formed and
no stored timestamp exceeds `t`. -/
def WFAt (t : Nat) (db : TodoDB) : Prop :=
  db.WF ∧ ∀ r ∈ db.rows, r.updated_at ≤ t

/-- `WFAt` is monotone in the clock bound. -/
theorem WFAt.mono {t t' : Nat} {db : TodoDB} (h : WFAt t db) (hle : t ≤ t') :
    WFAt t' db :=
  ⟨h.1, fun r hr => le_trans (h.2 r hr) hle⟩

/-- The AUTOINCREMENT counter never decreases along a request sequence. -/
theorem Steps.nextId_mono {t0 : Nat} {db0 : TodoDB} {t : Nat} {db : TodoDB}
    (h : Steps t0 db0 t db) : db0.nextId ≤ db.nextId := by
  induction h with
  | refl => exact le_refl _
  | tick _ _ ih => exact ih
  | create h hle p ih =>
    rcases create_todo_snd_cases _ _ p with h' | ⟨s, _, h'⟩ <;> rw [h']
    · exact ih
    · simpa using le_trans ih (by omega)
  | update h hle i p ih =>
    rcases update_todo_snd_cases _ _ i p with h' | ⟨s, b, _, h'⟩ <;> rw [h']
    · exact ih
    · exact ih
  | toggle h hle i ih =>
    rcases toggle_todo_snd_cases _ _ i with h' | ⟨c, _, h'⟩ <;> rw [h']
    · exact ih
    · exact ih
  | delete h i ih =>
    rcases delete_todo_snd_cases _ i with h' | h' <;> rw [h']
    · exact ih
    · exact ih

/-- Every row after a request sequence either keeps an id that was already
present at the start, or carries an id at least the starting counter value
(so ids freed by deletion below the counter are never seen again). -/
theorem Steps.fresh_ids {t0 : Nat} {db0 : TodoDB} {t : Nat} {db : TodoDB}
    (h : Steps t0 db0 t db) :
    ∀ r ∈ db.rows, (∃ s ∈ db0.rows, s.id = r.id) ∨ db0.nextId ≤ r.id := by
  induction h with
  | refl => exact fun r hr => Or.inl ⟨r, hr, rfl⟩
  | tick _ _ ih => exact ih
  | create h hle p ih =>
    intro r hr
    rcases create_todo_snd_cases _ _ p with h' | ⟨s, _, h'⟩
    · rw [h'] at hr
      exact ih r hr
    · rw [h'] at hr
      rcases List.mem_append.mp hr with hr | hr
      · exact ih r hr
      · simp only [List.mem_singleton] at hr
        subst hr
        right
        simpa using h.nextId_mono
  | update h hle i p ih =>
    intro r hr
    rcases update_todo_snd_cases _ _ i p with h' | ⟨s, b, _, h'⟩
    · rw [h'] at hr
      exact ih r hr
    · rw [h'] at hr
      obtain ⟨x, hx, hxr⟩ := List.mem_map.mp hr
      have hxid : r.id = x.id := by
        subst hxr
        by_cases hxi : x.id == i <;> simp [hxi]
      rcases ih x hx with ⟨s0, hs0, hs0x⟩ | hge
      · exact Or.inl ⟨s0, hs0, by omega⟩
      · exact Or.inr (by omega)
  | toggle h hle i ih =>
    intro r hr
    rcases toggle_todo_snd_cases _ _ i with h' | ⟨c, _, h'⟩
    · rw [h'] at hr
      exact ih r hr
    · rw [h'] at hr
      obtain ⟨x, hx, hxr⟩ := List.mem_map.mp hr
      have hxid : r.id = x.id := by
        subst hxr
        by_cases hxi : x.id == i <;> simp [hxi]
      rcases ih x hx with ⟨s0, hs0, hs0x⟩ | hge
      · exact Or.inl ⟨s0, hs0, by omega⟩
      · exact Or.inr (by omega)
  | delete h i ih =>
    intro r hr
    rcases delete_todo_snd_cases _ i with h' | h'
    · rw [h'] at hr
      exact ih r hr
    · rw [h'] at hr
      exact ih r (List.mem_of_mem_filter hr)

/-- Clock-bounded well-formedness is preserved by every request sequence. -/
theorem Steps.preserves_WFAt {t0 : Nat} {db0 : TodoDB} {t : Nat} {db : TodoDB}
    (h : Steps t0 db0 t db) (h0 : WFAt t0 db0) : WFAt t db := by
  induction h with
  | refl => exact h0
  | tick _ hle ih => exact ih.mono hle
  | create h hle p ih =>
    rcases create_todo_snd_cases _ _ p with h' | ⟨s, hs, h'⟩ <;> rw [h']
    · exact ih.mono hle
    · obtain ⟨⟨hnext, hrows⟩, hts⟩ := ih
      refine ⟨⟨by dsimp only; omega, ?_⟩, ?_⟩
      · intro r hr
        rcases List.mem_append.mp hr with hr | hr
        · obtain ⟨h1, h2, h3, h4, h5⟩ := hrows r hr
          exact ⟨h1, by dsimp only; omega, h3, h4, h5⟩
        · simp only [List.mem_singleton] at hr
          subst hr
          refine ⟨by simpa using hnext, by simp, hs, ?_, le_refl _⟩
          by_cases hcb : p.completed.getD false <;> simp [hcb]
      · intro r hr
        rcases List.mem_append.mp hr with hr | hr
        · exact le_trans (hts r hr) hle
        · simp only [List.mem_singleton] at hr
          subst hr
          exact le_refl _
  | update h hle i p ih =>
    rcases update_todo_snd_cases _ _ i p with h' | ⟨s, b, hs, h'⟩ <;> rw [h']
    · exact ih.mono hle
    · obtain ⟨⟨hnext, hrows⟩, hts⟩ := ih
      refine ⟨⟨hnext, ?_⟩, ?_⟩
      · intro r hr
        obtain ⟨x, hx, hxr⟩ := List.mem_map.mp hr
        obtain ⟨h1, h2, h3, h4, h5⟩ := hrows x hx
        subst hxr
        by_cases hxi : (x.id == i) = true
        · rw [if_pos hxi]
          refine ⟨h1, h2, hs, ?_, ?_⟩
          · by_cases hb : b <;> simp [hb]
          · exact le_trans (le_trans h5 (hts x hx)) hle
        · rw [if_neg hxi]
          exact ⟨h1, h2, h3, h4, h5⟩
      · intro r hr
        obtain ⟨x, hx, hxr⟩ := List.mem_map.mp hr
        subst hxr
        by_cases hxi : (x.id == i) = true
        · rw [if_pos hxi]
        · rw [if_neg hxi]
          exact le_trans (hts x hx) hle
  | toggle h hle i ih =>
    rcases toggle_todo_snd_cases _ _ i with h' | ⟨c, hc, h'⟩ <;> rw [h']
    · exact ih.mono hle
    · obtain ⟨⟨hnext, hrows⟩, hts⟩ := ih
      refine ⟨⟨hnext, ?_⟩, ?_⟩
      · intro r hr
        obtain ⟨x, hx, hxr⟩ := List.mem_map.mp hr
        obtain ⟨h1, h2, h3, h4, h5⟩ := hrows x hx
        subst hxr
        by_cases hxi : (x.id == i) = true
        · rw [if_pos hxi]
          exact ⟨h1, h2, h3, hc, le_trans (le_trans h5 (hts x hx)) hle⟩
        · rw [if_neg hxi]
          exact ⟨h1, h2, h3, h4, h5⟩
      · intro r hr
        obtain ⟨x, hx, hxr⟩ := List.mem_map.mp hr
        subst hxr
        by_cases hxi : (x.id == i) = true
        · rw [if_pos hxi]
        · rw [if_neg hxi]
          exact le_trans (hts x hx) hle
  | delete h i ih =>
    rcases delete_todo_snd_cases _ i with h' | h' <;> rw [h']
    · exact ih
    · obtain ⟨⟨hnext, hrows⟩, hts⟩ := ih
      exact ⟨⟨hnext, fun r hr => hrows r (List.mem_of_mem_filter hr)⟩,
        fun r hr => hts r (List.mem_of_mem_filter hr)⟩

/-- C9: in every reachable store, every stored item has a non-empty title
and `updated_at ≥ created_at`; and once an id is absent (deleted) from some
later store of the run, no continuation of the run ever stores that id
again — deleted ids are never reassigned. -/
theorem c9_reachable_invariants (t1 : Nat) (db1 : TodoDB) (h1 : Reachable t1 db1) :
    (∀ r ∈ db1.rows, r.title ≠ "" ∧ r.created_at ≤ r.updated_at) ∧
    (∀ (d : Int) (t2 t3 : Nat) (db2 db3 : TodoDB),
      (∃ r ∈ db1.rows, r.id = d) → Steps t1 db1 t2 db2 →
      (∀ r ∈ db2.rows, r.id ≠ d) → Steps t2 db2 t3 db3 →
      ∀ r ∈ db3.rows, r.id ≠ d) := by
  have hwf1 : WFAt t1 db1 :=
    Steps.preserves_WFAt h1 ⟨⟨le_refl 1, by simp [initDB]⟩, by simp [initDB]⟩
  constructor
  · intro r hr
    obtain ⟨⟨_, hrows⟩, _⟩ := hwf1
    exact ⟨(hrows r hr).2.2.1, (hrows r hr).2.2.2.2⟩
  · rintro d t2 t3 db2 db3 ⟨r1, hr1, hid1⟩ h12 habs h23 r hr hrd
    rcases h23.fresh_ids r hr with ⟨s, hs, hsid⟩ | hge
    · exact habs s hs (by rw [hsid, hrd])
    · have hlt : r1.id < db1.nextId := (hwf1.1.2 r1 hr1).2.1
      have hmono := h12.nextId_mono
      rw [hrd] at hge
      omega

/-- Witness for C9: the store reached by creating one item at time 5. -/
theorem c9_witness :
    (∀ r ∈ ((create_todo initDB 5 ⟨some "a", none⟩).2).rows,
      r.title ≠ "" ∧ r.created_at ≤ r.updated_at) ∧
    (∀ (d : Int) (t2 t3 : Nat) (db2 db3 : TodoDB),
      (∃ r ∈ ((create_todo initDB 5 ⟨some "a", none⟩).2).rows, r.id = d) →
      Steps 5 (create_todo initDB 5 ⟨some "a", none⟩).2 t2 db2 →
      (∀ r ∈ db2.rows, r.id ≠ d) → Steps t2 db2 t3 db3 →
      ∀ r ∈ db3.rows, r.id ≠ d) :=
  c9_reachable_invariants 5 (create_todo initDB 5 ⟨some "a", none⟩).2
    (Steps.create (Steps.refl 0 initDB) (Nat.zero_le 5) ⟨some "a", none⟩)
